import Mathlib

set_option maxHeartbeats 1000000

namespace JobBuddy

/-
Shallow embedding of the JobBuddy pipeline core and frontend state logic.

Frontend definitions are translated from the TypeScript sources under
src/frontend and src/unnamed.  Backend components (PipelineTracker,
SessionManager, StatusBroadcaster, CommandInterpreter, Orchestrator) are
absent from src/; those definitions are modelled from the spec and say so
in their doc comments.
-/

/-- Websocket message as handled by useWebSocket.ts: a `type` tag plus an
opaque payload and timestamp. -/
structure WSMessage where
  type : String
  payload : String
  timestamp : String
deriving DecidableEq, Repr

/-- Embeds the effect of the `ws.onmessage` switch in
src/frontend/src/hooks/useWebSocket.ts on the `statusUpdates` state.
`chat_response` only touches `chatMessages`; `pong` does nothing; every
other type runs `setStatusUpdates((prev) => [...prev.slice(-50), msg])`,
which keeps the last 50 entries of `prev` and appends `msg`. -/
def onMessageStatusUpdates (prev : List WSMessage) (msg : WSMessage) : List WSMessage :=
  if msg.type = "chat_response" then prev
  else if msg.type = "pong" then prev
  else (prev.drop (prev.length - 50)) ++ [msg]

/-- Embeds `toggleSelect` of JobList (src/unnamed/part_002, lines 55-62):
copy the set, delete `id` if present, otherwise add it. -/
def toggleSelect (id : ℕ) (sel : Finset ℕ) : Finset ℕ :=
  if id ∈ sel then sel.erase id else insert id sel

/-- Job listing as used by JobList; only the fields the embedded logic
reads are kept. -/
structure JobListing where
  id : ℕ
  status : String
deriving DecidableEq, Repr

/-- Embeds `selectAll` of JobList (src/unnamed/part_002, lines 64-70):
clear when the selection size equals the page length, otherwise select
the ids of the jobs on the page. -/
def selectAll (jobs : List JobListing) (sel : Finset ℕ) : Finset ℕ :=
  if sel.card = jobs.length then ∅ else (jobs.map (fun j => j.id)).toFinset

/-- Status keys of the `colors` table in `getStatusBadge`
(src/unnamed/part_002, lines 80-104); these are the job status values the
JobList page renders with a dedicated badge. -/
def jobStatusBadgeKeys : List String :=
  ["discovered", "scored", "approved", "applying", "applied", "skipped"]

/-- `STATUS_ORDER` from src/frontend/src/pages/ApplicationStatus.tsx
(lines 14-21): the application status values the kanban board displays. -/
def applicationStatusOrder : List String :=
  ["pending", "documents_ready", "form_filled", "awaiting_review", "submitted", "failed"]

/-- Modelled from the spec: the stage enum of §4.1 (PipelineTracker),
missing from src/. -/
inductive Stage where
  | discovered
  | scored
  | approved
  | docs_prepared
  | form_filled
  | submitted
  | failed
  | skipped
deriving DecidableEq, Repr, Fintype

/-- Printable name of a stage, matching the spec's spelling. -/
def stageName : Stage → String
  | .discovered => "discovered"
  | .scored => "scored"
  | .approved => "approved"
  | .docs_prepared => "docs_prepared"
  | .form_filled => "form_filled"
  | .submitted => "submitted"
  | .failed => "failed"
  | .skipped => "skipped"

/-- The eight stages in pipeline order. -/
def allStages : List Stage :=
  [.discovered, .scored, .approved, .docs_prepared, .form_filled, .submitted, .failed, .skipped]

/-- Names of the spec's lifecycle states. -/
def specStageNames : List String := allStages.map stageName

/-- Modelled from the spec: initial state of §4.1. -/
def initialStage : Stage := Stage.discovered

/-- Modelled from the spec: terminal (absorbing) states of §4.1. -/
def terminalStage : Stage → Bool
  | .submitted => true
  | .failed => true
  | .skipped => true
  | _ => false

/-- Modelled from the spec: WorkItemRecord of §3, missing from src/.
Timestamps are naturals from an injected clock; the error field keeps the
taxonomy code as a string. -/
structure WorkItemRecord where
  id : ℕ
  stage : Stage
  stage_history : List (Stage × ℕ)
  error : Option String
  retry_count : ℕ
deriving DecidableEq, Repr

/-- Modelled from the spec: forward edges of the §4.1 stage chain. -/
def forwardEdge : Stage → Option Stage
  | .discovered => some .scored
  | .scored => some .approved
  | .approved => some .docs_prepared
  | .docs_prepared => some .form_filled
  | .form_filled => some .submitted
  | _ => none

/-- Modelled from the spec: the allowed-edge table of §4.1 — the forward
chain plus `failed` and `skipped` reachable from any non-terminal stage. -/
def allowedEdge (s t : Stage) : Bool :=
  decide (forwardEdge s = some t) ||
    (!terminalStage s && (decide (t = Stage.failed) || decide (t = Stage.skipped)))

/-- Error taxonomy entries the modelled components use (§7). -/
inductive PipelineError where
  | invalidTransition
  | preconditionNotMet
deriving DecidableEq, Repr

/-- Checks whether an `Except` is a success. -/
def isOkE {ε α : Type} : Except ε α → Bool
  | .ok _ => true
  | .error _ => false

/-- Modelled from the spec: `advance(id, target_stage)` of §4.1, missing
from src/.  Written record-level in state-passing style: the first
component is the record after the call (unchanged on failure), the second
the outcome.  On a legal edge it appends one entry to `stage_history` and
returns the updated record; on an illegal pair it fails with
`InvalidTransition` and leaves the record untouched. -/
def advance (r : WorkItemRecord) (target : Stage) (now : ℕ) :
    WorkItemRecord × Except PipelineError WorkItemRecord :=
  if allowedEdge r.stage target then
    let r₁ := { r with stage := target, stage_history := r.stage_history ++ [(target, now)] }
    (r₁, Except.ok r₁)
  else
    (r, Except.error PipelineError.invalidTransition)

/-- Event kinds of StatusEvent (§3). -/
inductive EventKind where
  | stage_changed
  | session_changed
  | command_result
  | error
deriving DecidableEq, Repr

/-- Modelled from the spec: StatusEvent of §3, missing from src/. -/
structure StatusEvent where
  kind : EventKind
  payload : String
  timestamp : ℕ
  scope : Option ℕ
deriving DecidableEq, Repr

/-- Modelled from the spec: `Orchestrator.approve(id)` of §4.5, missing
from src/.  Precondition: stage is discovered or scored.  On success the
stage advances and a `stage_changed` event is published; on violation the
call fails with `PreconditionNotMet`, the record is unchanged, and an
`error` event is published (step 4 of §4.5 always runs). -/
def approveOp (r : WorkItemRecord) (now : ℕ) :
    WorkItemRecord × Except PipelineError WorkItemRecord × List StatusEvent :=
  if r.stage = Stage.discovered ∨ r.stage = Stage.scored then
    let r₁ := { r with stage := Stage.approved,
                       stage_history := r.stage_history ++ [(Stage.approved, now)] }
    (r₁, Except.ok r₁, [⟨EventKind.stage_changed, "approved", now, some r.id⟩])
  else
    (r, Except.error PipelineError.preconditionNotMet,
      [⟨EventKind.error, "PreconditionNotMet", now, some r.id⟩])

/-- Modelled from the spec: one subscriber of the StatusBroadcaster
(§4.3), missing from src/: a bounded buffer of capacity `capacity` plus a
`dropped_count` exposed out-of-band. -/
structure Subscriber where
  capacity : ℕ
  buffer : List StatusEvent
  dropped_count : ℕ
deriving DecidableEq, Repr

/-- Modelled from the spec: delivery of one published event to one
subscriber (§4.3).  If the buffer has room the event is appended; if it
is full the oldest buffered event is dropped, the new one appended, and
`dropped_count` is incremented. -/
def pushEvent (e : StatusEvent) (s : Subscriber) : Subscriber :=
  if s.buffer.length < s.capacity then
    { s with buffer := s.buffer ++ [e] }
  else
    { s with buffer := s.buffer.drop 1 ++ [e], dropped_count := s.dropped_count + 1 }

/-- Modelled from the spec: the StatusBroadcaster (§4.3), missing from
src/: a list of independent subscribers. -/
structure Broadcaster where
  subscribers : List Subscriber
deriving DecidableEq, Repr

/-- Modelled from the spec: `publish(event)` of §4.3 — each subscriber
receives the event independently; a slow subscriber's overflow never
touches the others. -/
def publish (e : StatusEvent) (b : Broadcaster) : Broadcaster :=
  ⟨b.subscribers.map (pushEvent e)⟩

/-- Modelled from the spec: the closed tagged action set of §4.4. -/
inductive CmdAction where
  | search
  | approveIds
  | rejectIds
  | prepareIds
  | fill_form
  | query_status
  | set_preferences
  | reply
deriving DecidableEq, Repr, Fintype

/-- Operational (state-touching or pipeline-facing) actions; `reply` is
conversational and non-operational (§4.4). -/
def isOperationalAction : CmdAction → Bool
  | .reply => false
  | _ => true

/-- Maps the extraction call's proposed action string to the recognized
closed set; unrecognized strings map to `none` (§4.4). -/
def parseAction : String → Option CmdAction
  | "search" => some .search
  | "approve" => some .approveIds
  | "reject" => some .rejectIds
  | "prepare" => some .prepareIds
  | "fill_form" => some .fill_form
  | "query_status" => some .query_status
  | "set_preferences" => some .set_preferences
  | "reply" => some .reply
  | _ => none

/-- Result of the external intent-extraction call (§4.4): proposed action
string, confidence in [0,1], parameters. -/
structure Extraction where
  action : String
  confidence : ℚ
  params : List (String × String)
deriving DecidableEq, Repr

/-- Command of §3: raw text, resolved action, confidence, parameters. -/
structure Command where
  raw_text : String
  action : CmdAction
  confidence : ℚ
  params : List (String × String)
deriving DecidableEq, Repr

/-- Modelled from the spec: `CommandInterpreter.resolve(text)` of §4.4,
missing from src/.  The external extraction call is an explicit function
argument.  If the proposed action is unrecognized, or the confidence is
below the configured threshold, the result is wrapped as a `reply`
action; otherwise the recognized action is returned. -/
def resolve (threshold : ℚ) (extract : String → Extraction) (text : String) : Command :=
  let ext := extract text
  match parseAction ext.action with
  | some a =>
      if ext.confidence < threshold then
        ⟨text, CmdAction.reply, ext.confidence, ext.params⟩
      else
        ⟨text, a, ext.confidence, ext.params⟩
  | none => ⟨text, CmdAction.reply, ext.confidence, ext.params⟩

/-- Most recent stage-history entry of a record. -/
def lastEntry (r : WorkItemRecord) : Option (Stage × ℕ) := r.stage_history.getLast?

/-- Modelled from the spec: the stall predicate of §4.1 — non-terminal
stage and most recent `stage_history` entry older than `threshold` under
the injected clock `now`. -/
def isStalled (threshold now : ℕ) (r : WorkItemRecord) : Bool :=
  !terminalStage r.stage &&
    match lastEntry r with
    | some e => decide (threshold < now - e.2)
    | none => false

/-- Modelled from the spec: `stalled(threshold)` of §4.1, missing from
src/: a point-in-time sweep over the store returning the identities of
stalled items. -/
def stalled (store : List WorkItemRecord) (threshold now : ℕ) : List ℕ :=
  (store.filter (isStalled threshold now)).map (fun r => r.id)

/-- State-passing form of the sweep, making explicit that the store is
returned unchanged: the call mutates no state. -/
def stalledSweep (store : List WorkItemRecord) (threshold now : ℕ) :
    List ℕ × List WorkItemRecord :=
  (stalled store threshold now, store)

/-- Observable events of the SessionManager's single-slot action queue
(§4.2): a caller arrives (enqueues), its action body starts, its action
body ends. -/
inductive SessionEvent where
  | arrive (c : ℕ)
  | beginAction (c : ℕ)
  | endAction (c : ℕ)
deriving DecidableEq, Repr

/-- State of the modelled action queue: callers queued in arrival order
and the callers whose action body is currently in flight. -/
structure QueueState where
  queued : List ℕ
  running : List ℕ
deriving DecidableEq, Repr

/-- Initial queue state: nothing queued, nothing running. -/
def initQ : QueueState := ⟨[], []⟩

/-- Modelled from the spec: the single-slot action queue of
`SessionManager.perform` (§4.2), missing from src/.  A caller may arrive
at any time; an action body may start only when no body is in flight and
the caller is at the head of the queue; a body ends only while it is the
one in flight. -/
inductive QStep : QueueState → SessionEvent → QueueState → Prop where
  | arrive (s : QueueState) (c : ℕ) :
      QStep s (.arrive c) ⟨s.queued ++ [c], s.running⟩
  | start (s : QueueState) (c : ℕ) (rest : List ℕ) :
      s.running = [] → s.queued = c :: rest →
      QStep s (.beginAction c) ⟨rest, [c]⟩
  | finish (s : QueueState) (c : ℕ) :
      s.running = [c] → QStep s (.endAction c) ⟨s.queued, []⟩

/-- Reflexive-transitive closure of `QStep` along a list of events. -/
inductive QTrace : QueueState → List SessionEvent → QueueState → Prop where
  | nil (s : QueueState) : QTrace s [] s
  | cons {s s₁ s₂ : QueueState} {e : SessionEvent} {es : List SessionEvent} :
      QStep s e s₁ → QTrace s₁ es s₂ → QTrace s (e :: es) s₂

/-- Callers in arrival order, read off a trace. -/
def arrivalsOf : List SessionEvent → List ℕ
  | [] => []
  | .arrive c :: es => c :: arrivalsOf es
  | .beginAction _ :: es => arrivalsOf es
  | .endAction _ :: es => arrivalsOf es

/-- Callers in the order their action bodies started, read off a trace. -/
def startsOf : List SessionEvent → List ℕ
  | [] => []
  | .arrive _ :: es => startsOf es
  | .beginAction c :: es => c :: startsOf es
  | .endAction _ :: es => startsOf es

/-- A demonstration trace: two callers arrive, their bodies run one after
the other. -/
def demoEvents : List SessionEvent :=
  [.arrive 1, .arrive 2, .beginAction 1, .endAction 1, .beginAction 2]

/-- Sample event for broadcaster evaluation. -/
def evA : StatusEvent := ⟨EventKind.stage_changed, "a", 0, none⟩

/-- Sample event for broadcaster evaluation. -/
def evB : StatusEvent := ⟨EventKind.stage_changed, "b", 1, none⟩

/-- Sample event for broadcaster evaluation. -/
def evC : StatusEvent := ⟨EventKind.error, "c", 2, none⟩

/-- Sample subscriber whose buffer is full. -/
def subDemo : Subscriber := ⟨2, [evA, evB], 0⟩

/-- Sample extraction call that proposes an operational action with low
confidence. -/
def lowExtract : String → Extraction := fun _ => ⟨"approve", 1 / 4, []⟩

/-- Sample record: non-terminal, last advanced long ago. -/
def recStalled : WorkItemRecord := ⟨1, Stage.approved, [(Stage.approved, 10)], none, 0⟩

/-- Sample record: terminal. -/
def recDone : WorkItemRecord := ⟨2, Stage.submitted, [(Stage.submitted, 10)], none, 0⟩

/-- Sample record: non-terminal, advanced recently. -/
def recFresh : WorkItemRecord := ⟨3, Stage.scored, [(Stage.scored, 95)], none, 0⟩

/-- Sample store for the stall sweep. -/
def demoStore : List WorkItemRecord := [recStalled, recDone, recFresh]

/-- Handling one message never pushes `statusUpdates` past 51 entries if
it was within 51 before. -/
theorem onMessage_preserves_bound (prev : List WSMessage) (msg : WSMessage)
    (h : prev.length ≤ 51) : (onMessageStatusUpdates prev msg).length ≤ 51 := by
  unfold onMessageStatusUpdates
  split
  · exact h
  · split
    · exact h
    · simp only [List.length_append, List.length_drop, List.length_cons, List.length_nil]
      omega

/-- Folding the handler from the empty list keeps the bound. -/
theorem onMessage_fold_bound (msgs : List WSMessage) :
    ∀ prev : List WSMessage, prev.length ≤ 51 →
      (msgs.foldl onMessageStatusUpdates prev).length ≤ 51 := by
  induction msgs with
  | nil => intro prev h; simpa using h
  | cons m ms ih =>
      intro prev h
      exact ih _ (onMessage_preserves_bound prev m h)

/-- C8: every received websocket message whose type is status_update,
jobs_scored, application_update, error, or any unrecognized type is
appended to `statusUpdates` after the existing list is truncated to its
most recent 50 entries (oldest discarded first, from the front), so the
list never holds more than 51 entries; messages of type pong never change
`statusUpdates`. -/
theorem statusUpdates_bounded (prev : List WSMessage) (msg : WSMessage) :
    (msg.type ≠ "chat_response" → msg.type ≠ "pong" →
      onMessageStatusUpdates prev msg = prev.drop (prev.length - 50) ++ [msg] ∧
      (onMessageStatusUpdates prev msg).length ≤ 51) ∧
    (msg.type = "pong" → onMessageStatusUpdates prev msg = prev) ∧
    (∀ msgs : List WSMessage, (msgs.foldl onMessageStatusUpdates []).length ≤ 51) := by
  refine ⟨fun h1 h2 => ⟨?_, ?_⟩, fun h => ?_, fun msgs => onMessage_fold_bound msgs [] (by simp)⟩
  · simp [onMessageStatusUpdates, h1, h2]
  · simp only [onMessageStatusUpdates, if_neg h1, if_neg h2, List.length_append,
      List.length_drop, List.length_cons, List.length_nil]
    omega
  · simp [onMessageStatusUpdates, h]

/-- Evaluation of `statusUpdates_bounded` on a concrete status_update
message arriving at an empty list. -/
theorem statusUpdates_bounded_witness :
    onMessageStatusUpdates [] ⟨"status_update", "p", "t"⟩ =
      ([] : List WSMessage).drop (([] : List WSMessage).length - 50) ++
        [⟨"status_update", "p", "t"⟩] ∧
    (onMessageStatusUpdates [] ⟨"status_update", "p", "t"⟩).length ≤ 51 :=
  (statusUpdates_bounded [] ⟨"status_update", "p", "t"⟩).1 (by decide) (by decide)

/-- C9: one application of `toggleSelect id` flips the membership of
exactly `id` in the selection while leaving every other id unchanged, and
applying it twice restores the original selection. -/
theorem toggleSelect_spec (id : ℕ) (sel : Finset ℕ) :
    (id ∈ toggleSelect id sel ↔ id ∉ sel) ∧
    (∀ j : ℕ, j ≠ id → (j ∈ toggleSelect id sel ↔ j ∈ sel)) ∧
    toggleSelect id (toggleSelect id sel) = sel := by
  by_cases h : id ∈ sel
  · refine ⟨by simp [toggleSelect, h], fun j hj => by simp [toggleSelect, h, hj], ?_⟩
    have h2 : id ∉ sel.erase id := by simp
    simp [toggleSelect, h, h2, Finset.insert_erase h]
  · refine ⟨by simp [toggleSelect, h], fun j hj => by simp [toggleSelect, h, hj], ?_⟩
    have h2 : id ∈ insert id sel := Finset.mem_insert_self id sel
    simp [toggleSelect, h, h2, Finset.erase_insert h]

/-- Evaluation of `toggleSelect_spec` on a concrete selection. -/
theorem toggleSelect_spec_witness :
    (2 ∈ toggleSelect 1 {1, 2} ↔ 2 ∈ ({1, 2} : Finset ℕ)) ∧
    toggleSelect 1 (toggleSelect 1 {1, 2}) = {1, 2} :=
  ⟨(toggleSelect_spec 1 {1, 2}).2.1 2 (by decide), (toggleSelect_spec 1 {1, 2}).2.2⟩

/-- C10: `selectAll` clears the selection precisely when the number of
selected ids equals the number of jobs on the page (even when those ids
are not the jobs' ids), and otherwise replaces the selection with exactly
the ids of the jobs on the page. -/
theorem selectAll_spec (jobs : List JobListing) (sel : Finset ℕ) :
    (sel.card = jobs.length → selectAll jobs sel = ∅) ∧
    (sel.card ≠ jobs.length →
      selectAll jobs sel = (jobs.map (fun j => j.id)).toFinset) := by
  constructor <;> intro h <;> simp [selectAll, h]

/-- Evaluation of `selectAll_spec`: a two-element selection disjoint from
the two jobs on the page still clears. -/
theorem selectAll_spec_witness :
    selectAll [⟨1, "scored"⟩, ⟨2, "scored"⟩] {5, 6} = ∅ ∧
    ({5, 6} : Finset ℕ) ∩ ({1, 2} : Finset ℕ) = ∅ :=
  ⟨(selectAll_spec [⟨1, "scored"⟩, ⟨2, "scored"⟩] {5, 6}).1 (by decide), by decide⟩

/-- C2 counterexample: the frontend displays job status values applying
and applied (JobList badge table) and the application status value
pending (ApplicationStatus board), none of which belong to the claimed
eight-state lifecycle set. -/
theorem statusSet_counterexample :
    "applying" ∈ jobStatusBadgeKeys ∧ "applied" ∈ jobStatusBadgeKeys ∧
    "pending" ∈ applicationStatusOrder ∧
    "applying" ∉ specStageNames ∧ "applied" ∉ specStageNames ∧
    "pending" ∉ specStageNames := by decide

/-- C2 (amended): the pipeline lifecycle states of the spec are exactly
discovered, scored, approved, docs_prepared, form_filled, submitted,
failed, skipped, with discovered initial and submitted, failed, skipped
the only terminal states; the frontend however also displays status
values outside this set, such as pending. -/
theorem statusSet_amended :
    (∀ s : Stage, s ∈ allStages) ∧
    specStageNames = ["discovered", "scored", "approved", "docs_prepared",
      "form_filled", "submitted", "failed", "skipped"] ∧
    initialStage = Stage.discovered ∧
    (∀ s : Stage, terminalStage s = true ↔
      (s = Stage.submitted ∨ s = Stage.failed ∨ s = Stage.skipped)) ∧
    "pending" ∈ applicationStatusOrder ∧ "pending" ∉ specStageNames := by
  refine ⟨fun s => by cases s <;> decide, by decide, rfl,
    fun s => by cases s <;> decide, by decide, by decide⟩

/-- Evaluation of `statusSet_amended` at the submitted stage. -/
theorem statusSet_amended_witness :
    terminalStage Stage.submitted = true ↔
      (Stage.submitted = Stage.submitted ∨ Stage.submitted = Stage.failed ∨
        Stage.submitted = Stage.skipped) :=
  statusSet_amended.2.2.2.1 Stage.submitted

/-- C1: `advance` succeeds exactly when the pair (current stage, target)
is an edge of the §4.1 stage graph; on success it appends one entry to
`stage_history` and returns the updated record; on an illegal pair it
fails with InvalidTransition and the record (stage, stage_history, error,
retry_count) is left completely unchanged. -/
theorem advance_spec (r : WorkItemRecord) (target : Stage) (now : ℕ) :
    (isOkE (advance r target now).2 = true ↔ allowedEdge r.stage target = true) ∧
    (allowedEdge r.stage target = true →
      (advance r target now).1.stage = target ∧
      (advance r target now).1.stage_history = r.stage_history ++ [(target, now)] ∧
      (advance r target now).1.error = r.error ∧
      (advance r target now).1.retry_count = r.retry_count ∧
      (advance r target now).2 = Except.ok (advance r target now).1) ∧
    (allowedEdge r.stage target = false →
      (advance r target now).2 = Except.error PipelineError.invalidTransition ∧
      (advance r target now).1 = r) := by
  by_cases h : allowedEdge r.stage target = true
  · simp [advance, h, isOkE]
  · simp only [Bool.not_eq_true] at h
    simp [advance, h, isOkE]

/-- Evaluation of `advance_spec`: the legal edge discovered → scored
appends history; the illegal pair submitted → scored fails and leaves the
record unchanged. -/
theorem advance_spec_witness :
    ((advance ⟨7, Stage.discovered, [], none, 0⟩ Stage.scored 5).1.stage = Stage.scored ∧
      (advance ⟨7, Stage.discovered, [], none, 0⟩ Stage.scored 5).1.stage_history =
        ([] : List (Stage × ℕ)) ++ [(Stage.scored, 5)] ∧
      (advance ⟨7, Stage.discovered, [], none, 0⟩ Stage.scored 5).1.error =
        (⟨7, Stage.discovered, [], none, 0⟩ : WorkItemRecord).error ∧
      (advance ⟨7, Stage.discovered, [], none, 0⟩ Stage.scored 5).1.retry_count =
        (⟨7, Stage.discovered, [], none, 0⟩ : WorkItemRecord).retry_count ∧
      (advance ⟨7, Stage.discovered, [], none, 0⟩ Stage.scored 5).2 =
        Except.ok (advance ⟨7, Stage.discovered, [], none, 0⟩ Stage.scored 5).1) ∧
    ((advance ⟨8, Stage.submitted, [], none, 0⟩ Stage.scored 5).2 =
        Except.error PipelineError.invalidTransition ∧
      (advance ⟨8, Stage.submitted, [], none, 0⟩ Stage.scored 5).1 =
        ⟨8, Stage.submitted, [], none, 0⟩) :=
  ⟨(advance_spec ⟨7, Stage.discovered, [], none, 0⟩ Stage.scored 5).2.1 (by decide),
   (advance_spec ⟨8, Stage.submitted, [], none, 0⟩ Stage.scored 5).2.2 (by decide)⟩

/-- C4: `approve` succeeds only when the stage is discovered or scored;
in every other stage it fails with PreconditionNotMet, leaves the record
unchanged, publishes an event of kind error, and publishes no event of
kind stage_changed. -/
theorem approveOp_spec (r : WorkItemRecord) (now : ℕ) :
    (isOkE (approveOp r now).2.1 = true →
      r.stage = Stage.discovered ∨ r.stage = Stage.scored) ∧
    (r.stage ≠ Stage.discovered → r.stage ≠ Stage.scored →
      (approveOp r now).2.1 = Except.error PipelineError.preconditionNotMet ∧
      (approveOp r now).1 = r ∧
      ((approveOp r now).2.2.any fun e => e.kind == EventKind.error) = true ∧
      ((approveOp r now).2.2.all fun e => !(e.kind == EventKind.stage_changed)) = true) := by
  by_cases h : r.stage = Stage.discovered ∨ r.stage = Stage.scored
  · refine ⟨fun _ => h, fun h1 h2 => ?_⟩
    cases h with
    | inl h => exact absurd h h1
    | inr h => exact absurd h h2
  · refine ⟨fun hok => ?_, fun _ _ => ?_⟩
    · exfalso
      simp [approveOp, h, isOkE] at hok
    · simp [approveOp, h, isOkE]

/-- Evaluation of `approveOp_spec` on an already-submitted record. -/
theorem approveOp_spec_witness :
    (approveOp ⟨3, Stage.submitted, [], none, 0⟩ 9).2.1 =
        Except.error PipelineError.preconditionNotMet ∧
    (approveOp ⟨3, Stage.submitted, [], none, 0⟩ 9).1 = ⟨3, Stage.submitted, [], none, 0⟩ ∧
    ((approveOp ⟨3, Stage.submitted, [], none, 0⟩ 9).2.2.any
        fun e => e.kind == EventKind.error) = true ∧
    ((approveOp ⟨3, Stage.submitted, [], none, 0⟩ 9).2.2.all
        fun e => !(e.kind == EventKind.stage_changed)) = true :=
  (approveOp_spec ⟨3, Stage.submitted, [], none, 0⟩ 9).2 (by decide) (by decide)

/-- C5: for every subscriber with a buffer within capacity, delivering a
published event keeps the buffer within capacity, never decreases the
dropped count, and on a full buffer drops exactly the oldest event and
increments the dropped count; and each subscriber's post-publish state is
a function of its own prior state only, so one subscriber's overflow
leaves every other subscriber unchanged. -/
theorem broadcaster_spec (e : StatusEvent) (s : Subscriber)
    (hcap : 1 ≤ s.capacity) (hlen : s.buffer.length ≤ s.capacity) :
    (pushEvent e s).buffer.length ≤ s.capacity ∧
    (pushEvent e s).capacity = s.capacity ∧
    s.dropped_count ≤ (pushEvent e s).dropped_count ∧
    (s.buffer.length = s.capacity →
      (pushEvent e s).buffer = s.buffer.drop 1 ++ [e] ∧
      (pushEvent e s).dropped_count = s.dropped_count + 1) ∧
    (∀ (b : Broadcaster) (j : ℕ),
      (publish e b).subscribers[j]? = (b.subscribers[j]?).map (pushEvent e)) := by
  refine ⟨?_, ?_, ?_, fun hfull => ?_, fun b j => ?_⟩
  · by_cases hroom : s.buffer.length < s.capacity
    · simp only [pushEvent, if_pos hroom, List.length_append, List.length_cons,
        List.length_nil]
      omega
    · simp only [pushEvent, if_neg hroom, List.length_append, List.length_drop,
        List.length_cons, List.length_nil]
      omega
  · by_cases hroom : s.buffer.length < s.capacity <;> simp [pushEvent, hroom]
  · by_cases hroom : s.buffer.length < s.capacity <;> simp [pushEvent, hroom]
  · have hroom : ¬ s.buffer.length < s.capacity := by omega
    simp [pushEvent, hroom]
  · simp [publish, List.getElem?_map]

/-- Evaluation of `broadcaster_spec` on a full two-slot subscriber: the
oldest event is dropped and the dropped count increments. -/
theorem broadcaster_spec_witness :
    (pushEvent evC subDemo).buffer.length ≤ subDemo.capacity ∧
    (pushEvent evC subDemo).buffer = subDemo.buffer.drop 1 ++ [evC] ∧
    (pushEvent evC subDemo).dropped_count = subDemo.dropped_count + 1 :=
  ⟨(broadcaster_spec evC subDemo (by decide) (by decide)).1,
   (broadcaster_spec evC subDemo (by decide) (by decide)).2.2.2.1 (by decide)⟩

/-- C6: `resolve` returns an operational action only when the extraction
confidence is at or above the threshold and the proposed action string
parses into the recognized closed set; below threshold, or on an
unrecognized action, the result is the reply action. -/
theorem resolve_spec (threshold : ℚ) (extract : String → Extraction) (text : String) :
    (isOperationalAction (resolve threshold extract text).action = true →
      threshold ≤ (extract text).confidence ∧
      parseAction (extract text).action = some (resolve threshold extract text).action) ∧
    ((extract text).confidence < threshold →
      (resolve threshold extract text).action = CmdAction.reply) ∧
    (parseAction (extract text).action = none →
      (resolve threshold extract text).action = CmdAction.reply) := by
  by_cases hc : (extract text).confidence < threshold
  · cases hp : parseAction (extract text).action with
    | none => simp [resolve, hp, isOperationalAction]
    | some a => simp [resolve, hp, hc, isOperationalAction]
  · cases hp : parseAction (extract text).action with
    | none => simp [resolve, hp, isOperationalAction]
    | some a =>
        refine ⟨fun _ => ⟨le_of_not_lt hc, ?_⟩, fun h => absurd h hc,
          fun h => by simp [hp] at h⟩
        simp [resolve, hp, hc]

/-- Evaluation of `resolve_spec`: a proposed approve action with
confidence 1/4 against threshold 1/2 resolves to reply. -/
theorem resolve_spec_witness :
    (resolve (1 / 2) lowExtract "approve the first job").action = CmdAction.reply :=
  (resolve_spec (1 / 2) lowExtract "approve the first job").2.1 (by norm_num [lowExtract])

/-- The stall predicate holds exactly on non-terminal records whose most
recent history entry is older than the threshold. -/
theorem isStalled_iff (threshold now : ℕ) (r : WorkItemRecord) :
    isStalled threshold now r = true ↔
      terminalStage r.stage = false ∧
        ∃ e, lastEntry r = some e ∧ threshold < now - e.2 := by
  unfold isStalled
  cases h : lastEntry r with
  | none => simp [h]
  | some e => simp [h]

/-- C7: `stalled` returns exactly the identities of items in the store
whose stage is non-terminal and whose most recent stage_history entry is
older than the threshold under the injected clock, and the sweep returns
the store unchanged (it mutates no state; repeated calls re-scan). -/
theorem stalled_spec (store : List WorkItemRecord) (threshold now : ℕ) :
    (∀ i : ℕ, i ∈ stalled store threshold now ↔
      ∃ r ∈ store, r.id = i ∧ terminalStage r.stage = false ∧
        ∃ e, lastEntry r = some e ∧ threshold < now - e.2) ∧
    (stalledSweep store threshold now).2 = store ∧
    (stalledSweep store threshold now).1 = stalled store threshold now := by
  refine ⟨fun i => ?_, rfl, rfl⟩
  simp only [stalled, List.mem_map, List.mem_filter, isStalled_iff]
  constructor
  · rintro ⟨r, ⟨hmem, hterm, hst⟩, hid⟩
    exact ⟨r, hmem, hid, hterm, hst⟩
  · rintro ⟨r, hmem, hid, hterm, hst⟩
    exact ⟨r, ⟨hmem, hterm, hst⟩, hid⟩

/-- Evaluation of `stalled_spec` on a three-record store: only the stale
non-terminal record is reported. -/
theorem stalled_spec_witness :
    1 ∈ stalled demoStore 20 100 ∧ stalled demoStore 20 100 = [1] :=
  ⟨((stalled_spec demoStore 20 100).1 1).mpr
      ⟨recStalled, by decide, by decide, by decide, (Stage.approved, 10), by decide, by decide⟩,
   by decide⟩

/-- Along any trace of the action queue, a running-set of at most one
caller stays of at most one caller. -/
theorem qtrace_running {s₀ : QueueState} {es : List SessionEvent} {s : QueueState}
    (h : QTrace s₀ es s) (h0 : s₀.running.length ≤ 1) : s.running.length ≤ 1 := by
  induction h with
  | nil _ => exact h0
  | cons hs _ ih =>
      apply ih
      cases hs with
      | arrive c => exact h0
      | start c rest h1 h2 => simp
      | finish c h1 => simp

/-- Along any trace, the callers that arrived are exactly the callers
whose bodies started followed by the callers still queued, preserving
order. -/
theorem qtrace_queued {s₀ : QueueState} {es : List SessionEvent} {s : QueueState}
    (h : QTrace s₀ es s) :
    s₀.queued ++ arrivalsOf es = startsOf es ++ s.queued := by
  induction h with
  | nil _ => simp [arrivalsOf, startsOf]
  | cons hs _ ih =>
      cases hs with
      | arrive c =>
          simpa [arrivalsOf, startsOf] using ih
      | start c rest h1 h2 =>
          rw [h2]
          simpa [arrivalsOf, startsOf] using ih
      | finish c h1 =>
          simpa [arrivalsOf, startsOf] using ih

/-- C3: in every trace of the modelled single-slot session queue from
the initial state, at most one action body is in flight at any reachable
state (no two perform bodies overlap), and the order in which bodies
start is exactly the arrival order of their callers (the started callers
followed by the still-queued callers reconstruct the arrival list). -/
theorem session_serialized (es : List SessionEvent) (s : QueueState)
    (h : QTrace initQ es s) :
    s.running.length ≤ 1 ∧ arrivalsOf es = startsOf es ++ s.queued := by
  refine ⟨qtrace_running h (by simp [initQ]), ?_⟩
  have hq := qtrace_queued h
  simpa [initQ] using hq

/-- Evaluation of `session_serialized` on a concrete two-caller trace in
which the bodies run one after the other. -/
theorem session_serialized_witness :
    (⟨[], [2]⟩ : QueueState).running.length ≤ 1 ∧
      arrivalsOf demoEvents = startsOf demoEvents ++ (⟨[], [2]⟩ : QueueState).queued :=
  session_serialized demoEvents ⟨[], [2]⟩
    (QTrace.cons (QStep.arrive initQ 1)
      (QTrace.cons (QStep.arrive ⟨[1], []⟩ 2)
        (QTrace.cons (QStep.start ⟨[1, 2], []⟩ 1 [2] rfl rfl)
          (QTrace.cons (QStep.finish ⟨[2], [1]⟩ 1 rfl)
            (QTrace.cons (QStep.start ⟨[2], []⟩ 2 [] rfl rfl)
              (QTrace.nil ⟨[], [2]⟩))))))

end JobBuddy
